import Mathlib

set_option maxHeartbeats 1000000

/-! Verification of the swapchain lifecycle and frame-synchronization logic of
`src/main.cpp` (mcanim_vk): a shallow embedding of the device-selection code,
the swapchain-configuration helpers and the per-frame drawing loop, together
with theorems about them.  External collaborators (the windowing system, the
Vulkan driver) are modelled as explicit inputs: the window's framebuffer size
is an argument, and the results the driver reports (acquire/present result
codes, device enumerations, surface capabilities) are parameters of the
embedded functions. -/

/-- Width/height pair (`vk::Extent2D`); the components are `uint32_t` values,
modelled as `Nat`. -/
structure Extent2D where
  width : Nat
  height : Nat
deriving DecidableEq, Repr

/-- Sentinel value `std::numeric_limits<uint32_t>::max()` (`0xFFFFFFFF`). -/
def UINT32_MAX : Nat := 4294967295

/-- Modulus of `uint32_t` arithmetic. -/
def U32_MOD : Nat := 4294967296

/-- A `vk::SurfaceFormatKHR`: a (pixel format, color space) pair, carrying the
numeric codes of the Vulkan enumerants. -/
structure SurfaceFormatKHR where
  format : Nat
  colorSpace : Nat
deriving DecidableEq, Repr

/-- Numeric code of `vk::Format::eB8G8R8A8Srgb`. -/
def VK_FORMAT_B8G8R8A8_SRGB : Nat := 50

/-- Numeric code of `vk::ColorSpaceKHR::eSrgbNonlinear`. -/
def VK_COLOR_SPACE_SRGB_NONLINEAR_KHR : Nat := 0

/-- The fields of `vk::SurfaceCapabilitiesKHR` that the program reads. -/
structure SurfaceCapabilitiesKHR where
  minImageCount : Nat
  maxImageCount : Nat
  currentExtent : Extent2D
  minImageExtent : Extent2D
  maxImageExtent : Extent2D
deriving DecidableEq, Repr

/-- `std::clamp(v, lo, hi)` on `uint32_t` values, exactly as the source
evaluates it: `v < lo ? lo : hi < v ? hi : v`. -/
def clampU32 (v lo hi : Nat) : Nat :=
  if v < lo then lo else if hi < v then hi else v

/-- `Application::chooseSwapExtent`.  The window's framebuffer pixel size,
which the source reads through `glfwGetFramebufferSize`, is passed in as the
`framebuffer` argument. -/
def chooseSwapExtent (capabilities : SurfaceCapabilitiesKHR)
    (framebuffer : Extent2D) : Extent2D :=
  if capabilities.currentExtent.width ≠ UINT32_MAX then
    capabilities.currentExtent
  else
    { width := clampU32 framebuffer.width capabilities.minImageExtent.width
        capabilities.maxImageExtent.width,
      height := clampU32 framebuffer.height capabilities.minImageExtent.height
        capabilities.maxImageExtent.height }

/-- The per-element test of the loop in `Application::chooseSwapSurfaceFormat`:
`format == vk::Format::eB8G8R8A8Srgb && colorSpace == eSrgbNonlinear`. -/
def isPreferredFormat (availableFormat : SurfaceFormatKHR) : Bool :=
  availableFormat.format == VK_FORMAT_B8G8R8A8_SRGB &&
    availableFormat.colorSpace == VK_COLOR_SPACE_SRGB_NONLINEAR_KHR

/-- `Application::chooseSwapSurfaceFormat`: return the first candidate that is
BGRA8-sRGB with nonlinear-sRGB color space; otherwise fall back to
`availableFormats[0]`.  The unchecked index `[0]` is modelled as `head?`, so an
out-of-bounds access appears as `none`. -/
def chooseSwapSurfaceFormat (availableFormats : List SurfaceFormatKHR) :
    Option SurfaceFormatKHR :=
  match availableFormats.find? isPreferredFormat with
  | some availableFormat => some availableFormat
  | none => availableFormats.head?

/-- The preferred surface format `chooseSwapSurfaceFormat` scans for. -/
def preferredSurfaceFormat : SurfaceFormatKHR :=
  { format := VK_FORMAT_B8G8R8A8_SRGB,
    colorSpace := VK_COLOR_SPACE_SRGB_NONLINEAR_KHR }

/-- The requested image count computed in `Application::createSwapChain`:
`minImageCount + 1` in `uint32_t` arithmetic, replaced by `maxImageCount`
when the latter is nonzero and exceeded. -/
def swapImageCount (capabilities : SurfaceCapabilitiesKHR) : Nat :=
  let imageCount := (capabilities.minImageCount + 1) % U32_MOD
  if 0 < capabilities.maxImageCount ∧ capabilities.maxImageCount < imageCount then
    capabilities.maxImageCount
  else
    imageCount

lemma clampU32_eq_max_min (v lo hi : Nat) (h : lo ≤ hi) :
    clampU32 v lo hi = max lo (min v hi) := by
  unfold clampU32
  split
  · omega
  · split <;> omega

lemma isPreferredFormat_iff (f : SurfaceFormatKHR) :
    isPreferredFormat f = true ↔ f = preferredSurfaceFormat := by
  cases f with
  | mk fmt cs =>
    simp [isPreferredFormat, preferredSurfaceFormat, SurfaceFormatKHR.mk.injEq,
      Bool.and_eq_true, beq_iff_eq]

/-- C6 (functional correctness): for well-formed capabilities (the two
components of `currentExtent` hit the `0xFFFFFFFF` sentinel together, and the
extent bounds satisfy `min ≤ max` component-wise), `chooseSwapExtent` returns
`currentExtent` as-is whenever it is not the undefined sentinel pair
`(0xFFFFFFFF, 0xFFFFFFFF)`, and otherwise returns the framebuffer size clamped
component-wise into `[minImageExtent, maxImageExtent]`. -/
theorem chooseSwapExtent_spec (capabilities : SurfaceCapabilitiesKHR)
    (framebuffer : Extent2D)
    (hvalid : capabilities.currentExtent.width = UINT32_MAX ↔
      capabilities.currentExtent.height = UINT32_MAX)
    (hw : capabilities.minImageExtent.width ≤ capabilities.maxImageExtent.width)
    (hh : capabilities.minImageExtent.height ≤ capabilities.maxImageExtent.height) :
    (capabilities.currentExtent ≠ ⟨UINT32_MAX, UINT32_MAX⟩ →
      chooseSwapExtent capabilities framebuffer = capabilities.currentExtent) ∧
    (capabilities.currentExtent = ⟨UINT32_MAX, UINT32_MAX⟩ →
      chooseSwapExtent capabilities framebuffer =
        ⟨max capabilities.minImageExtent.width
            (min framebuffer.width capabilities.maxImageExtent.width),
         max capabilities.minImageExtent.height
            (min framebuffer.height capabilities.maxImageExtent.height)⟩) := by
  constructor
  · intro hne
    have hwne : capabilities.currentExtent.width ≠ UINT32_MAX := by
      intro hweq
      apply hne
      have hheq := hvalid.mp hweq
      cases hce : capabilities.currentExtent with
      | mk w h =>
        rw [hce] at hweq hheq
        simp at hweq hheq
        simp [hweq, hheq]
    simp [chooseSwapExtent, hwne]
  · intro heq
    have hweq : capabilities.currentExtent.width = UINT32_MAX := by
      rw [heq]
    simp only [chooseSwapExtent, hweq, ne_eq, not_true_eq_false, if_false,
      clampU32_eq_max_min _ _ _ hw, clampU32_eq_max_min _ _ _ hh]

/-- Example capabilities from the spec's extent test: sentinel current extent,
bounds `[1,4096]` in both components. -/
def exCapsSentinelWide : SurfaceCapabilitiesKHR :=
  { minImageCount := 2, maxImageCount := 0,
    currentExtent := ⟨UINT32_MAX, UINT32_MAX⟩,
    minImageExtent := ⟨1, 1⟩, maxImageExtent := ⟨4096, 4096⟩ }

/-- Example capabilities from the spec's extent test: sentinel current extent,
minimum extent `(64,64)`. -/
def exCapsSentinelMin64 : SurfaceCapabilitiesKHR :=
  { minImageCount := 2, maxImageCount := 0,
    currentExtent := ⟨UINT32_MAX, UINT32_MAX⟩,
    minImageExtent := ⟨64, 64⟩, maxImageExtent := ⟨4096, 4096⟩ }

/-- Witness for C6, at the spec's two concrete examples: sentinel capabilities
with framebuffer `(1024,768)` yield `(1024,768)`; framebuffer `(1,1)` with
minimum extent `(64,64)` yields `(64,64)`. -/
theorem chooseSwapExtent_spec_witness :
    chooseSwapExtent exCapsSentinelWide ⟨1024, 768⟩ = ⟨1024, 768⟩ ∧
    chooseSwapExtent exCapsSentinelMin64 ⟨1, 1⟩ = ⟨64, 64⟩ := by
  constructor
  · exact ((chooseSwapExtent_spec exCapsSentinelWide ⟨1024, 768⟩ (by decide)
      (by decide) (by decide)).2 (by decide)).trans (by decide)
  · exact ((chooseSwapExtent_spec exCapsSentinelMin64 ⟨1, 1⟩ (by decide)
      (by decide) (by decide)).2 (by decide)).trans (by decide)

/-- C7 (functional correctness): for every non-empty candidate list,
`chooseSwapSurfaceFormat` returns the BGRA8-sRGB/nonlinear-sRGB pair when that
pair occurs anywhere in the list, and otherwise returns the first element of
the list (which exists). -/
theorem chooseSwapSurfaceFormat_spec (availableFormats : List SurfaceFormatKHR)
    (hne : availableFormats ≠ []) :
    (preferredSurfaceFormat ∈ availableFormats →
      chooseSwapSurfaceFormat availableFormats = some preferredSurfaceFormat) ∧
    (preferredSurfaceFormat ∉ availableFormats →
      chooseSwapSurfaceFormat availableFormats = availableFormats.head? ∧
      (availableFormats.head?).isSome = true) := by
  constructor
  · intro hmem
    cases hfind : availableFormats.find? isPreferredFormat with
    | none =>
      exfalso
      have := List.find?_eq_none.mp hfind preferredSurfaceFormat hmem
      exact this ((isPreferredFormat_iff preferredSurfaceFormat).mpr rfl)
    | some f =>
      have hf := List.find?_some hfind
      have : f = preferredSurfaceFormat := (isPreferredFormat_iff f).mp hf
      simp [chooseSwapSurfaceFormat, hfind, this]
  · intro hnot
    cases hfind : availableFormats.find? isPreferredFormat with
    | none =>
      refine ⟨by simp [chooseSwapSurfaceFormat, hfind], ?_⟩
      cases availableFormats with
      | nil => exact absurd rfl hne
      | cons a l => simp
    | some f =>
      exfalso
      have hf := List.find?_some hfind
      have hfe : f = preferredSurfaceFormat := (isPreferredFormat_iff f).mp hf
      have hmem := List.mem_of_find?_eq_some hfind
      rw [hfe] at hmem
      exact hnot hmem

/-- Witness for C7: with the preferred pair present (second position) it is
selected; without it, the first element is returned. -/
theorem chooseSwapSurfaceFormat_spec_witness :
    chooseSwapSurfaceFormat [⟨37, 0⟩, ⟨50, 0⟩] = some preferredSurfaceFormat ∧
    chooseSwapSurfaceFormat [⟨37, 0⟩, ⟨44, 1⟩] = some ⟨37, 0⟩ := by
  constructor
  · exact (chooseSwapSurfaceFormat_spec [⟨37, 0⟩, ⟨50, 0⟩] (by decide)).1
      (by decide)
  · exact (((chooseSwapSurfaceFormat_spec [⟨37, 0⟩, ⟨44, 1⟩] (by decide)).2
      (by decide)).1).trans (by decide)

/-- C8 (functional correctness): as long as `minImageCount + 1` does not wrap
`uint32_t`, the requested image count is `minImageCount + 1`, except that when
`maxImageCount` is nonzero and smaller than `minImageCount + 1` it is clamped
down to `maxImageCount` (`maxImageCount = 0` never clamps). -/
theorem swapImageCount_spec (capabilities : SurfaceCapabilitiesKHR)
    (hmin : capabilities.minImageCount + 1 < U32_MOD) :
    (¬ (capabilities.maxImageCount ≠ 0 ∧
        capabilities.maxImageCount < capabilities.minImageCount + 1) →
      swapImageCount capabilities = capabilities.minImageCount + 1) ∧
    (capabilities.maxImageCount ≠ 0 →
      capabilities.maxImageCount < capabilities.minImageCount + 1 →
      swapImageCount capabilities = capabilities.maxImageCount) := by
  have hmod : (capabilities.minImageCount + 1) % U32_MOD =
      capabilities.minImageCount + 1 := Nat.mod_eq_of_lt hmin
  unfold swapImageCount
  rw [hmod]
  constructor
  · intro hnc
    rw [if_neg]
    omega
  · intro h0 hlt
    rw [if_pos]
    omega

/-- Example capabilities with unbounded `maxImageCount`. -/
def exCapsUnbounded : SurfaceCapabilitiesKHR :=
  { minImageCount := 2, maxImageCount := 0, currentExtent := ⟨800, 600⟩,
    minImageExtent := ⟨1, 1⟩, maxImageExtent := ⟨4096, 4096⟩ }

/-- Example capabilities whose `maxImageCount` forces a clamp. -/
def exCapsClamped : SurfaceCapabilitiesKHR :=
  { minImageCount := 2, maxImageCount := 2, currentExtent := ⟨800, 600⟩,
    minImageExtent := ⟨1, 1⟩, maxImageExtent := ⟨4096, 4096⟩ }

/-- Witness for C8: `minImageCount = 2, maxImageCount = 0` requests 3 images;
`minImageCount = 2, maxImageCount = 2` clamps to 2. -/
theorem swapImageCount_spec_witness :
    swapImageCount exCapsUnbounded = 3 ∧ swapImageCount exCapsClamped = 2 := by
  constructor
  · exact (swapImageCount_spec _ (by decide)).1 (by decide)
  · exact (swapImageCount_spec _ (by decide)).2 (by decide) (by decide)

/-- Per-queue-family capability bits the program queries: the
`vk::QueueFlagBits::eGraphics` flag and the per-surface
`getSurfaceSupportKHR` answer. -/
structure QueueFamilyProperties where
  supportsGraphics : Bool
  supportsPresent : Bool
deriving DecidableEq, Repr

/-- The `QueueFamilyIndices` struct of the source. -/
structure QueueFamilyIndices where
  graphicsFamily : Option Nat
  presentFamily : Option Nat
deriving DecidableEq, Repr

/-- `QueueFamilyIndices::isComplete`. -/
def QueueFamilyIndices.isComplete (indices : QueueFamilyIndices) : Bool :=
  indices.graphicsFamily.isSome && indices.presentFamily.isSome

/-- A physical device as the selector observes it: its queue-family
properties, its device-extension names, and the surface formats and present
modes it reports for the program's surface. -/
structure PhysicalDevice where
  queueFamilies : List QueueFamilyProperties
  extensions : List String
  formats : List SurfaceFormatKHR
  presentModes : List Nat
deriving DecidableEq, Repr

/-- The required device-extension list (`deviceExtensions` in the source). -/
def deviceExtensions : List String := ["VK_KHR_swapchain"]

/-- The loop body of `Application::findQueueFamilies`: walk the families in
order, overwrite each index when the family qualifies, stop early once both
indices are present. -/
def findQueueFamiliesAux :
    List QueueFamilyProperties → Nat → QueueFamilyIndices → QueueFamilyIndices
  | [], _, indices => indices
  | queueFamily :: rest, i, indices =>
    let indices1 := if queueFamily.supportsGraphics then
      { indices with graphicsFamily := some i } else indices
    let indices2 := if queueFamily.supportsPresent then
      { indices1 with presentFamily := some i } else indices1
    if indices2.isComplete then indices2
    else findQueueFamiliesAux rest (i + 1) indices2

/-- `Application::findQueueFamilies`. -/
def findQueueFamilies (device : PhysicalDevice) : QueueFamilyIndices :=
  findQueueFamiliesAux device.queueFamilies 0
    { graphicsFamily := none, presentFamily := none }

/-- `Application::isDeviceSuitable`: all required extensions available, both
queue-family indices found, and nonempty surface-format and present-mode
lists. -/
def isDeviceSuitable (device : PhysicalDevice) : Bool :=
  let queueFamilies := findQueueFamilies device
  deviceExtensions.all (fun e => device.extensions.contains e) &&
    (queueFamilies.isComplete &&
      (!device.formats.isEmpty && !device.presentModes.isEmpty))

/-- `Application::pickPhysicalDevice`: iterate the enumeration, overwriting the
kept device on every suitable candidate; `none` models the fatal throw raised
when the handle stays empty. -/
def pickPhysicalDevice (devices : List PhysicalDevice) : Option PhysicalDevice :=
  devices.foldl
    (fun physicalDevice device =>
      if isDeviceSuitable device then some device else physicalDevice)
    none

lemma pick_foldl_eq (devices : List PhysicalDevice) (acc : Option PhysicalDevice) :
    devices.foldl
      (fun physicalDevice device =>
        if isDeviceSuitable device then some device else physicalDevice)
      acc =
    (devices.reverse.find? (fun device => isDeviceSuitable device)).or acc := by
  induction devices generalizing acc with
  | nil => simp
  | cons d rest ih =>
    simp only [List.foldl_cons, ih, List.reverse_cons, List.find?_append]
    cases hd : isDeviceSuitable d <;>
      simp [List.find?, hd, Option.or_assoc]

lemma pickPhysicalDevice_eq_find_reverse (devices : List PhysicalDevice) :
    pickPhysicalDevice devices =
      devices.reverse.find? (fun device => isDeviceSuitable device) := by
  rw [pickPhysicalDevice, pick_foldl_eq, Option.or_none]

/-- C2 (functional correctness): the device selector examines the enumeration
in order and keeps the last suitable device (the first suitable one of the
reversed enumeration), overwriting earlier suitable matches; it comes up empty
(and then throws) exactly when no enumerated device is suitable. -/
theorem pickPhysicalDevice_spec (devices : List PhysicalDevice) :
    pickPhysicalDevice devices =
      devices.reverse.find? (fun device => isDeviceSuitable device) ∧
    (pickPhysicalDevice devices = none ↔
      ∀ device ∈ devices, isDeviceSuitable device = false) := by
  refine ⟨pickPhysicalDevice_eq_find_reverse devices, ?_⟩
  rw [pickPhysicalDevice_eq_find_reverse]
  simp [List.find?_eq_none]

/-- Unsuitable example device: lacks the swapchain extension. -/
def devUnsuitable : PhysicalDevice :=
  { queueFamilies := [{ supportsGraphics := true, supportsPresent := true }],
    extensions := [], formats := [⟨50, 0⟩], presentModes := [2] }

/-- Suitable example device B. -/
def devSuitableB : PhysicalDevice :=
  { queueFamilies := [{ supportsGraphics := true, supportsPresent := true }],
    extensions := ["VK_KHR_swapchain"], formats := [⟨50, 0⟩],
    presentModes := [2] }

/-- Suitable example device C, distinct from B. -/
def devSuitableC : PhysicalDevice :=
  { queueFamilies := [{ supportsGraphics := true, supportsPresent := true }],
    extensions := ["VK_KHR_swapchain"], formats := [⟨37, 0⟩, ⟨50, 0⟩],
    presentModes := [2, 0] }

/-- Witness for C2, at the spec's tie-break example: devices
`[A: unsuitable, B: suitable, C: suitable]` select C, not B. -/
theorem pickPhysicalDevice_spec_witness :
    pickPhysicalDevice [devUnsuitable, devSuitableB, devSuitableC] =
      some devSuitableC := by
  rw [(pickPhysicalDevice_spec [devUnsuitable, devSuitableB, devSuitableC]).1]
  decide

/-- C10 (implicit safety): every device the selector can return is suitable,
hence reports at least one surface format and one present mode; therefore the
unchecked `availableFormats[0]` fallback of `chooseSwapSurfaceFormat` is in
bounds on every call path of the program (the embedded `head?` is `some`). -/
theorem chooseSwapSurfaceFormat_fallback_safe (devices : List PhysicalDevice)
    (device : PhysicalDevice) (hpick : pickPhysicalDevice devices = some device) :
    isDeviceSuitable device = true ∧ device.formats ≠ [] ∧
    device.presentModes ≠ [] ∧
    (chooseSwapSurfaceFormat device.formats).isSome = true := by
  rw [pickPhysicalDevice_eq_find_reverse] at hpick
  have hsuit : isDeviceSuitable device = true := by
    have := List.find?_some hpick
    simpa using this
  have hparts := hsuit
  simp only [isDeviceSuitable, Bool.and_eq_true, Bool.not_eq_true',
    List.isEmpty_eq_false] at hparts
  obtain ⟨-, -, hformats, hmodes⟩ := hparts
  refine ⟨hsuit, hformats, hmodes, ?_⟩
  cases hfind : device.formats.find? isPreferredFormat with
  | some f => simp [chooseSwapSurfaceFormat, hfind]
  | none =>
    simp only [chooseSwapSurfaceFormat, hfind]
    exact List.head?_isSome.mpr hformats

/-- Witness for C10: a one-device enumeration returning device B. -/
theorem chooseSwapSurfaceFormat_fallback_safe_witness :
    isDeviceSuitable devSuitableB = true ∧ devSuitableB.formats ≠ [] ∧
    devSuitableB.presentModes ≠ [] ∧
    (chooseSwapSurfaceFormat devSuitableB.formats).isSome = true :=
  chooseSwapSurfaceFormat_fallback_safe [devSuitableB] devSuitableB (by decide)

/-- The stall loop at the head of `Application::recreateSwapChain`: read the
framebuffer size, and while either component is zero, re-read it (after
`glfwWaitEvents`).  The successive values `glfwGetFramebufferSize` returns are
modelled by the sequence `sizes`; `fuel` bounds how many reads we model, with
`none` standing for a loop that is still stalling after `fuel` reads. -/
def stallFramebuffer (sizes : Nat → Nat × Nat) : Nat → Nat → Option (Nat × Nat)
  | 0, _ => none
  | fuel + 1, k =>
    let wh := sizes k
    if wh.1 = 0 ∨ wh.2 = 0 then stallFramebuffer sizes fuel (k + 1)
    else some wh

/-- The extent with which `Application::recreateSwapChain` rebuilds the
swapchain: stall until the framebuffer size is nonzero, then run
`chooseSwapExtent` on the freshly queried capabilities and that framebuffer
size. -/
def recreateSwapChainExtent (fuel : Nat) (sizes : Nat → Nat × Nat)
    (capabilities : SurfaceCapabilitiesKHR) : Option Extent2D :=
  (stallFramebuffer sizes fuel 0).map
    (fun wh => chooseSwapExtent capabilities ⟨wh.1, wh.2⟩)

lemma stallFramebuffer_pos (sizes : Nat → Nat × Nat) :
    ∀ fuel k wh, stallFramebuffer sizes fuel k = some wh →
      0 < wh.1 ∧ 0 < wh.2 := by
  intro fuel
  induction fuel with
  | zero => intro k wh h; simp [stallFramebuffer] at h
  | succ n ih =>
    intro k wh h
    rw [stallFramebuffer] at h
    by_cases hz : (sizes k).1 = 0 ∨ (sizes k).2 = 0
    · rw [if_pos hz] at h
      exact ih (k + 1) wh h
    · rw [if_neg hz] at h
      cases h
      omega

lemma stallFramebuffer_total (sizes : Nat → Nat × Nat) :
    ∀ fuel k, (∃ n, n < fuel ∧ 0 < (sizes (k + n)).1 ∧ 0 < (sizes (k + n)).2) →
      (stallFramebuffer sizes fuel k).isSome = true := by
  intro fuel
  induction fuel with
  | zero => intro k h; omega
  | succ m ih =>
    intro k h
    rw [stallFramebuffer]
    by_cases hz : (sizes k).1 = 0 ∨ (sizes k).2 = 0
    · rw [if_pos hz]
      apply ih
      obtain ⟨n, hn, h1, h2⟩ := h
      cases n with
      | zero => simp at h1 h2; omega
      | succ p =>
        refine ⟨p, by omega, ?_, ?_⟩
        · have : k + 1 + p = k + (p + 1) := by omega
          rw [this]; exact h1
        · have : k + 1 + p = k + (p + 1) := by omega
          rw [this]; exact h2
    · rw [if_neg hz]
      rfl

/-- C9 (safety): the recreation stall never proceeds with a zero framebuffer
size — any size it hands on is positive in both components, it does terminate
once some poll reports a nonzero size, and the extent the rebuilt swapchain
gets from the framebuffer-derived path (sentinel `currentExtent`, positive
`maxImageExtent`) is nonzero in both components. -/
theorem recreateSwapChain_stall_spec :
    (∀ sizes fuel k wh, stallFramebuffer sizes fuel k = some wh →
      0 < wh.1 ∧ 0 < wh.2) ∧
    (∀ sizes fuel, (∃ n, n < fuel ∧ 0 < (sizes n).1 ∧ 0 < (sizes n).2) →
      (stallFramebuffer sizes fuel 0).isSome = true) ∧
    (∀ sizes fuel capabilities e,
      recreateSwapChainExtent fuel sizes capabilities = some e →
      capabilities.currentExtent.width = UINT32_MAX →
      0 < capabilities.maxImageExtent.width →
      0 < capabilities.maxImageExtent.height →
      0 < e.width ∧ 0 < e.height) := by
  refine ⟨stallFramebuffer_pos, ?_, ?_⟩
  · intro sizes fuel h
    apply stallFramebuffer_total
    simpa using h
  · intro sizes fuel capabilities e he hsent hmw hmh
    rw [recreateSwapChainExtent] at he
    cases hst : stallFramebuffer sizes fuel 0 with
    | none => rw [hst] at he; simp at he
    | some wh =>
      rw [hst] at he
      simp only [Option.map_some', Option.some.injEq] at he
      obtain ⟨h1, h2⟩ := stallFramebuffer_pos sizes fuel 0 wh hst
      rw [← he]
      simp only [chooseSwapExtent, hsent, ne_eq, not_true_eq_false, if_false]
      constructor
      · simp only [clampU32]
        split
        · omega
        · split <;> omega
      · simp only [clampU32]
        split
        · omega
        · split <;> omega

/-- Size sequence of a window that stays minimized for two polls and then
reports `(1024, 768)`. -/
def exSizes : Nat → Nat × Nat := fun n => if n < 2 then (0, 0) else (1024, 768)

/-- Witness for C9: with `exSizes` the stall returns `(1024, 768)` (positive in
both components), it terminates within 5 reads, and the rebuilt extent under
sentinel capabilities is the positive `(1024, 768)`. -/
theorem recreateSwapChain_stall_spec_witness :
    (0 < (1024 : Nat) ∧ 0 < (768 : Nat)) ∧
    (stallFramebuffer exSizes 5 0).isSome = true ∧
    (0 < (1024 : Nat) ∧ 0 < (768 : Nat)) := by
  refine ⟨?_, ?_, ?_⟩
  · exact recreateSwapChain_stall_spec.1 exSizes 5 0 (1024, 768) (by decide)
  · exact recreateSwapChain_stall_spec.2.1 exSizes 5 ⟨2, by decide⟩
  · have h := recreateSwapChain_stall_spec.2.2 exSizes 5 exCapsSentinelWide
      ⟨1024, 768⟩ (by decide) (by decide) (by decide) (by decide)
    exact h

/-- The result codes the frame loop distinguishes (`vk::Result`): success,
`eSuboptimalKHR`, `eErrorOutOfDateKHR`, and any other (fatal) code. -/
inductive VkResult
  | success
  | suboptimalKHR
  | errorOutOfDateKHR
  | otherError
deriving Repr

instance : DecidableEq VkResult := fun a b =>
  match a, b with
  | .success, .success => isTrue rfl
  | .suboptimalKHR, .suboptimalKHR => isTrue rfl
  | .errorOutOfDateKHR, .errorOutOfDateKHR => isTrue rfl
  | .otherError, .otherError => isTrue rfl
  | .success, .suboptimalKHR | .success, .errorOutOfDateKHR
  | .success, .otherError | .suboptimalKHR, .success
  | .suboptimalKHR, .errorOutOfDateKHR | .suboptimalKHR, .otherError
  | .errorOutOfDateKHR, .success | .errorOutOfDateKHR, .suboptimalKHR
  | .errorOutOfDateKHR, .otherError | .otherError, .success
  | .otherError, .suboptimalKHR | .otherError, .errorOutOfDateKHR => isFalse nofun

/-- The externally observable operations one `drawFrame` iteration performs,
in program order. -/
inductive FrameOp
  | waitFence (slot : Fin 2)
  | acquireImage
  | recreate
  | resetFence (slot : Fin 2)
  | resetCmdBuf (slot : Fin 2)
  | record (slot : Fin 2) (imageIndex : Nat)
  | submit (slot : Fin 2)
  | present (imageIndex : Nat)
deriving DecidableEq, Repr

/-- One iteration's external inputs: the result `acquireNextImageKHR` reports
and the image index it yields, whether `submit` succeeds, the result
`presentKHR` reports, and whether a resize notification was delivered during
this iteration's event poll. -/
structure FrameInput where
  acquireRes : VkResult
  acquireImageIndex : Nat
  submitOk : Bool
  presentRes : VkResult
  resizeEvent : Bool
deriving DecidableEq, Repr

/-- The per-slot outstanding-submission counters, one per frame slot
(`MAX_FRAMES_IN_FLIGHT = 2`).  `sl0`/`sl1` count the submissions on slot
0/1's fence that have not yet been waited on and observed signaled. -/
structure SlotCounts where
  sl0 : Nat
  sl1 : Nat
deriving DecidableEq, Repr

/-- Read the counter of slot `i`. -/
def SlotCounts.get (c : SlotCounts) (i : Fin 2) : Nat :=
  if i = 0 then c.sl0 else c.sl1

/-- Write the counter of slot `i` (an `inFlightFences[i]`-style indexed
assignment). -/
def SlotCounts.set (c : SlotCounts) (i : Fin 2) (v : Nat) : SlotCounts :=
  if i = 0 then { c with sl0 := v } else { c with sl1 := v }

lemma SlotCounts.get_set_same (c : SlotCounts) (i : Fin 2) (v : Nat) :
    (c.set i v).get i = v := by
  by_cases h : i = 0 <;> simp [SlotCounts.get, SlotCounts.set, h]

lemma fin_two_eq_one {i : Fin 2} (h : ¬ i = 0) : i = 1 := by
  fin_cases i
  · exact absurd rfl h
  · rfl

lemma SlotCounts.get_set_other {j i : Fin 2} (h : j ≠ i) (c : SlotCounts)
    (v : Nat) : (c.set i v).get j = c.get j := by
  by_cases hi : i = 0 <;> by_cases hj : j = 0
  · exact absurd (hj.trans hi.symm) h
  · simp [SlotCounts.get, SlotCounts.set, hi, hj]
  · simp [SlotCounts.get, SlotCounts.set, hi, hj]
  · exact absurd ((fin_two_eq_one hj).trans (fin_two_eq_one hi).symm) h

lemma SlotCounts.set_set (c : SlotCounts) (i : Fin 2) (v w : Nat) :
    (c.set i v).set i w = c.set i w := by
  by_cases h : i = 0 <;> simp [SlotCounts.set, h]

/-- The synchronization-relevant state of the `Application` between frame-loop
iterations: `current_frame`, the per-slot outstanding-submission counters, and
the `framebufferResized` flag. -/
structure FrameState where
  current_frame : Fin 2
  submitted : SlotCounts
  framebufferResized : Bool
deriving DecidableEq, Repr

/-- State at startup: slot 0, no outstanding submission on either fence (both
are created already signaled), no pending resize notification. -/
def initialState : FrameState :=
  { current_frame := 0, submitted := ⟨0, 0⟩, framebufferResized := false }

/-- Operations of an iteration aborted by an out-of-date acquire: wait on the
slot's fence, attempt the acquire, recreate the swapchain, return. -/
def abortOps (cf : Fin 2) : List FrameOp :=
  [FrameOp.waitFence cf, FrameOp.acquireImage, FrameOp.recreate]

/-- Operations of an iteration that reaches submission and presentation. -/
def normalOps (cf : Fin 2) (imageIndex : Nat) : List FrameOp :=
  [FrameOp.waitFence cf, FrameOp.acquireImage, FrameOp.resetFence cf,
   FrameOp.resetCmdBuf cf, FrameOp.record cf imageIndex, FrameOp.submit cf,
   FrameOp.present imageIndex]

/-- The tail of `Application::drawFrame` after a non-out-of-date acquire:
reset the slot's fence, reset and re-record the slot's command buffer against
the acquired image, submit on the slot's fence (one more outstanding
submission on the current slot), present, then either recreate the swapchain
(out-of-date/suboptimal present result or pending resize flag, which is then
cleared) or finish normally (present success) or throw (any other present
result, `none`); finally advance `current_frame` modulo 2.  `s` is the state
after the fence wait. -/
def finishFrame (s : FrameState) (inp : FrameInput) :
    Option (FrameState × List FrameOp) :=
  let cf := s.current_frame
  if inp.submitOk then
    let afterSubmit : FrameState :=
      { s with submitted := s.submitted.set cf (s.submitted.get cf + 1) }
    if inp.presentRes = VkResult.errorOutOfDateKHR ∨
        inp.presentRes = VkResult.suboptimalKHR ∨
        afterSubmit.framebufferResized = true then
      some ({ afterSubmit with
              framebufferResized := false
              current_frame := cf + 1 },
        normalOps cf inp.acquireImageIndex ++ [FrameOp.recreate])
    else if inp.presentRes = VkResult.success then
      some ({ afterSubmit with current_frame := cf + 1 },
        normalOps cf inp.acquireImageIndex)
    else
      none
  else
    none

/-- `Application::drawFrame`: wait (unbounded) on the current slot's fence —
afterwards that slot has no outstanding submission — then acquire.  An
out-of-date acquire recreates the swapchain and returns at once; a fatal
acquire result throws (`none`); success or suboptimal proceeds with the rest
of the frame. -/
def drawFrame (s : FrameState) (inp : FrameInput) :
    Option (FrameState × List FrameOp) :=
  let cf := s.current_frame
  let afterWait : FrameState :=
    { s with submitted := s.submitted.set cf 0 }
  match inp.acquireRes with
  | VkResult.errorOutOfDateKHR => some (afterWait, abortOps cf)
  | VkResult.otherError => none
  | VkResult.success => finishFrame afterWait inp
  | VkResult.suboptimalKHR => finishFrame afterWait inp

/-- One iteration of `Application::loop`: `glfwPollEvents` — during which the
resize callback may set `framebufferResized` — followed by `drawFrame`. -/
def loopStep (s : FrameState) (inp : FrameInput) :
    Option (FrameState × List FrameOp) :=
  drawFrame
    { s with framebufferResized := s.framebufferResized || inp.resizeEvent }
    inp

/-- Frame-loop states reachable from startup. -/
inductive Reachable : FrameState → Prop
  | init : Reachable initialState
  | step {s s' : FrameState} {inp : FrameInput} {ops : List FrameOp} :
      Reachable s → loopStep s inp = some (s', ops) → Reachable s'

lemma finishFrame_cases {s : FrameState} {inp : FrameInput} {s' : FrameState}
    {ops : List FrameOp} (h : finishFrame s inp = some (s', ops)) :
    inp.submitOk = true ∧
    s'.current_frame = s.current_frame + 1 ∧
    s'.submitted =
      s.submitted.set s.current_frame (s.submitted.get s.current_frame + 1) ∧
    (((inp.presentRes = VkResult.errorOutOfDateKHR ∨
        inp.presentRes = VkResult.suboptimalKHR ∨
        s.framebufferResized = true) ∧
      s'.framebufferResized = false ∧
      ops = normalOps s.current_frame inp.acquireImageIndex ++
        [FrameOp.recreate]) ∨
     (inp.presentRes = VkResult.success ∧
      ¬ (inp.presentRes = VkResult.errorOutOfDateKHR ∨
         inp.presentRes = VkResult.suboptimalKHR ∨
         s.framebufferResized = true) ∧
      s'.framebufferResized = s.framebufferResized ∧
      ops = normalOps s.current_frame inp.acquireImageIndex)) := by
  rw [finishFrame] at h
  by_cases hsub : inp.submitOk
  · rw [if_pos hsub] at h
    refine ⟨hsub, ?_⟩
    by_cases hpc : inp.presentRes = VkResult.errorOutOfDateKHR ∨
        inp.presentRes = VkResult.suboptimalKHR ∨ s.framebufferResized = true
    · rw [if_pos hpc] at h
      injection h with h1
      injection h1 with hs hops
      subst hs
      subst hops
      exact ⟨rfl, rfl, Or.inl ⟨hpc, rfl, rfl⟩⟩
    · rw [if_neg hpc] at h
      by_cases hps : inp.presentRes = VkResult.success
      · rw [if_pos hps] at h
        injection h with h1
        injection h1 with hs hops
        subst hs
        subst hops
        exact ⟨rfl, rfl, Or.inr ⟨hps, hpc, rfl, rfl⟩⟩
      · rw [if_neg hps] at h
        exact absurd h (by simp)
  · rw [if_neg hsub] at h
    exact absurd h (by simp)

lemma loopStep_cases {s : FrameState} {inp : FrameInput} {s' : FrameState}
    {ops : List FrameOp} (h : loopStep s inp = some (s', ops)) :
    (inp.acquireRes = VkResult.errorOutOfDateKHR ∧
      s'.current_frame = s.current_frame ∧
      s'.submitted = s.submitted.set s.current_frame 0 ∧
      s'.framebufferResized = (s.framebufferResized || inp.resizeEvent) ∧
      ops = abortOps s.current_frame) ∨
    ((inp.acquireRes = VkResult.success ∨
      inp.acquireRes = VkResult.suboptimalKHR) ∧
      inp.submitOk = true ∧
      s'.current_frame = s.current_frame + 1 ∧
      s'.submitted = s.submitted.set s.current_frame 1 ∧
      (((inp.presentRes = VkResult.errorOutOfDateKHR ∨
         inp.presentRes = VkResult.suboptimalKHR ∨
         (s.framebufferResized || inp.resizeEvent) = true) ∧
        s'.framebufferResized = false ∧
        ops = normalOps s.current_frame inp.acquireImageIndex ++
          [FrameOp.recreate]) ∨
       (inp.presentRes = VkResult.success ∧
        ¬ (inp.presentRes = VkResult.errorOutOfDateKHR ∨
           inp.presentRes = VkResult.suboptimalKHR ∨
           (s.framebufferResized || inp.resizeEvent) = true) ∧
        s'.framebufferResized = (s.framebufferResized || inp.resizeEvent) ∧
        ops = normalOps s.current_frame inp.acquireImageIndex))) := by
  rw [loopStep, drawFrame] at h
  cases hacq : inp.acquireRes with
  | errorOutOfDateKHR =>
    rw [hacq] at h
    injection h with h1
    injection h1 with hs hops
    subst hs
    subst hops
    exact Or.inl ⟨rfl, rfl, rfl, rfl, rfl⟩
  | otherError =>
    rw [hacq] at h
    exact absurd h (by simp)
  | success =>
    rw [hacq] at h
    have hc := finishFrame_cases h
    simp only [] at hc
    obtain ⟨hsub, hcf, hsubm, hrest⟩ := hc
    rw [SlotCounts.get_set_same] at hsubm
    simp only [Nat.zero_add] at hsubm
    rw [SlotCounts.set_set] at hsubm
    exact Or.inr ⟨Or.inl rfl, hsub, hcf, hsubm, hrest⟩
  | suboptimalKHR =>
    rw [hacq] at h
    have hc := finishFrame_cases h
    simp only [] at hc
    obtain ⟨hsub, hcf, hsubm, hrest⟩ := hc
    rw [SlotCounts.get_set_same] at hsubm
    simp only [Nat.zero_add] at hsubm
    rw [SlotCounts.set_set] at hsubm
    exact Or.inr ⟨Or.inr rfl, hsub, hcf, hsubm, hrest⟩

lemma reachable_slotBound {s : FrameState} (h : Reachable s) :
    ∀ i : Fin 2, s.submitted.get i ≤ 1 := by
  induction h with
  | init => intro i; by_cases hi : i = 0 <;> simp [initialState, SlotCounts.get, hi]
  | @step s s' inp ops hr hstep ih =>
    intro i
    rcases loopStep_cases hstep with ⟨-, -, hsubm, -, -⟩ | ⟨-, -, -, hsubm, -⟩
    · rw [hsubm]
      by_cases hi : i = s.current_frame
      · subst hi; rw [SlotCounts.get_set_same]; omega
      · rw [SlotCounts.get_set_other hi]; exact ih i
    · rw [hsubm]
      by_cases hi : i = s.current_frame
      · subst hi; rw [SlotCounts.get_set_same]
      · rw [SlotCounts.get_set_other hi]; exact ih i

/-- C1 (invariant): on every state the frame loop can reach, each of the two
frame slots has at most one submitted-but-unfenced command buffer, so the
total never exceeds N = 2; moreover, in any iteration a command-buffer reset
targets only the current slot, and the iteration's first operation is the
unbounded wait on that same slot's fence. -/
theorem frameBound_invariant :
    (∀ s, Reachable s →
      s.submitted.get 0 ≤ 1 ∧ s.submitted.get 1 ≤ 1 ∧
      s.submitted.get 0 + s.submitted.get 1 ≤ 2) ∧
    (∀ s inp s' ops k, loopStep s inp = some (s', ops) →
      FrameOp.resetCmdBuf k ∈ ops →
      k = s.current_frame ∧ ops.head? = some (FrameOp.waitFence k)) := by
  constructor
  · intro s hs
    have h0 := reachable_slotBound hs 0
    have h1 := reachable_slotBound hs 1
    exact ⟨h0, h1, by omega⟩
  · intro s inp s' ops k hstep hmem
    rcases loopStep_cases hstep with ⟨-, -, -, -, hops⟩ | ⟨-, -, -, -, hrest⟩
    · subst hops
      simp [abortOps] at hmem
    · rcases hrest with ⟨-, -, hops⟩ | ⟨-, -, -, hops⟩
      · subst hops
        simp [normalOps] at hmem
        subst hmem
        exact ⟨rfl, rfl⟩
      · subst hops
        simp [normalOps] at hmem
        subst hmem
        exact ⟨rfl, rfl⟩

/-- A fully successful iteration's inputs: acquire success, submit succeeds,
present success, no resize notification. -/
def okInput : FrameInput :=
  { acquireRes := VkResult.success, acquireImageIndex := 0, submitOk := true,
    presentRes := VkResult.success, resizeEvent := false }

/-- The state after one fully successful iteration from `initialState`. -/
def oneFrameState : FrameState :=
  { current_frame := 1, submitted := ⟨1, 0⟩, framebufferResized := false }

/-- Witness for C1: after one successful frame from startup the bound holds
(slot 0 holds its single outstanding submission), and in that concrete
iteration the command-buffer reset targeted slot 0, with the fence wait as
the first operation. -/
theorem frameBound_invariant_witness :
    (oneFrameState.submitted.get 0 ≤ 1 ∧ oneFrameState.submitted.get 1 ≤ 1 ∧
      oneFrameState.submitted.get 0 + oneFrameState.submitted.get 1 ≤ 2) ∧
    ((0 : Fin 2) = initialState.current_frame ∧
      (normalOps 0 0).head? = some (FrameOp.waitFence 0)) := by
  constructor
  · exact frameBound_invariant.1 oneFrameState
      (Reachable.step Reachable.init
        (show loopStep initialState okInput = some (oneFrameState, normalOps 0 0)
          by decide))
  · exact frameBound_invariant.2 initialState okInput oneFrameState
      (normalOps 0 0) 0 (by decide) (by decide)

/-- Iteration inputs whose acquire reports the swapchain out of date. -/
def oodInput : FrameInput :=
  { acquireRes := VkResult.errorOutOfDateKHR, acquireImageIndex := 0,
    submitOk := true, presentRes := VkResult.success, resizeEvent := false }

/-- Counterexample to C3 as stated: in the iteration whose acquire reports the
swapchain out of date, `drawFrame` returns before the statement that advances
`current_frame`, so the slot index is NOT advanced "regardless of outcome":
from `initialState` (slot 0) the aborted iteration ends again in slot 0, which
differs from the advanced value 1. -/
theorem currentFrame_advance_cex :
    (loopStep initialState oodInput).map (fun r => r.1.current_frame) =
      some initialState.current_frame ∧
    initialState.current_frame ≠ initialState.current_frame + 1 := by
  exact ⟨by decide, by decide⟩

/-- C3 as amended: `current_frame` is advanced modulo N = 2 in every iteration
that is not aborted by an out-of-date acquire; in the aborted iteration it is
left unchanged. -/
theorem currentFrame_advance (s : FrameState) (inp : FrameInput)
    (s' : FrameState) (ops : List FrameOp)
    (hstep : loopStep s inp = some (s', ops)) :
    (inp.acquireRes = VkResult.errorOutOfDateKHR →
      s'.current_frame = s.current_frame) ∧
    (inp.acquireRes ≠ VkResult.errorOutOfDateKHR →
      s'.current_frame = s.current_frame + 1) := by
  rcases loopStep_cases hstep with ⟨hacq, hcf, -, -, -⟩ | ⟨hacq, -, hcf, -, -⟩
  · exact ⟨fun _ => hcf, fun hne => absurd hacq hne⟩
  · constructor
    · intro hood
      rcases hacq with h | h <;> rw [hood] at h <;> exact absurd h (by simp)
    · intro _
      exact hcf

/-- Witness for C3 (amended): the fully successful iteration from startup
advances slot 0 to slot 1. -/
theorem currentFrame_advance_witness :
    oneFrameState.current_frame = initialState.current_frame + 1 :=
  (currentFrame_advance initialState okInput oneFrameState (normalOps 0 0)
    (by decide)).2 (by decide)

/-- C4 (error handling): when acquire reports the swapchain out of date, the
iteration waits on the slot's fence, attempts the acquire, recreates the
swapchain and stops: no fence reset, no command-buffer reset, no re-record,
no submit, no present; the slot index is unchanged, and the only change to
the slot counters is the wait observing the slot's (still signaled) fence. -/
theorem outOfDate_acquire_aborts (s : FrameState) (inp : FrameInput)
    (s' : FrameState) (ops : List FrameOp)
    (hstep : loopStep s inp = some (s', ops))
    (hacq : inp.acquireRes = VkResult.errorOutOfDateKHR) :
    ops = abortOps s.current_frame ∧
    FrameOp.recreate ∈ ops ∧
    (∀ k, FrameOp.resetFence k ∉ ops) ∧
    (∀ k, FrameOp.resetCmdBuf k ∉ ops) ∧
    (∀ k j, FrameOp.record k j ∉ ops) ∧
    (∀ k, FrameOp.submit k ∉ ops) ∧
    (∀ j, FrameOp.present j ∉ ops) ∧
    s'.current_frame = s.current_frame ∧
    s'.submitted = s.submitted.set s.current_frame 0 := by
  rcases loopStep_cases hstep with ⟨-, hcf, hsubm, -, hops⟩ | ⟨hacq2, -, -, -, -⟩
  · subst hops
    exact ⟨rfl, by simp [abortOps], fun k => by simp [abortOps],
      fun k => by simp [abortOps], fun k j => by simp [abortOps],
      fun k => by simp [abortOps], fun j => by simp [abortOps], hcf, hsubm⟩
  · rw [hacq] at hacq2
    rcases hacq2 with h | h <;> exact absurd h (by simp)

/-- Witness for C4: the out-of-date iteration from startup recreates and skips
every reset/record/submit/present operation. -/
theorem outOfDate_acquire_aborts_witness :
    FrameOp.recreate ∈ abortOps 0 ∧ FrameOp.resetFence 0 ∉ abortOps 0 ∧
    FrameOp.resetCmdBuf 0 ∉ abortOps 0 ∧ FrameOp.submit 0 ∉ abortOps 0 := by
  have h := outOfDate_acquire_aborts initialState oodInput initialState
    (abortOps 0) (by decide) rfl
  exact ⟨h.2.1, h.2.2.1 0, h.2.2.2.1 0, h.2.2.2.2.2.1 0⟩

/-- Iteration inputs with a suboptimal acquire, a successful present and no
pending resize. -/
def suboptInput : FrameInput :=
  { acquireRes := VkResult.suboptimalKHR, acquireImageIndex := 0,
    submitOk := true, presentRes := VkResult.success, resizeEvent := false }

/-- Counterexample to C5 as stated: an iteration whose acquire reports
suboptimal, whose present succeeds and with no resize pending performs the
full frame (submit and present included) but never invokes swapchain
recreation — the suboptimal acquire result is not remembered anywhere. -/
theorem suboptimal_not_remembered_cex :
    (loopStep initialState suboptInput).map (fun r => r.2) =
      some (normalOps 0 0) ∧
    FrameOp.recreate ∉ normalOps 0 0 := by
  exact ⟨by decide, by decide⟩

/-- C5 as amended: a suboptimal acquire proceeds with the frame — the
iteration neither throws nor aborts, and submits and presents as usual — but
the suboptimal acquire result is not remembered: recreation after presenting
happens exactly when the present call itself reports out-of-date or
suboptimal, or a resize notification is pending, and not otherwise. -/
theorem suboptimal_acquire_proceeds (s : FrameState) (inp : FrameInput)
    (hacq : inp.acquireRes = VkResult.suboptimalKHR)
    (hsub : inp.submitOk = true)
    (hpres : inp.presentRes ≠ VkResult.otherError) :
    (loopStep s inp).isSome = true ∧
    (∀ s' ops, loopStep s inp = some (s', ops) →
      FrameOp.submit s.current_frame ∈ ops ∧
      FrameOp.present inp.acquireImageIndex ∈ ops ∧
      (FrameOp.recreate ∈ ops ↔
        (inp.presentRes = VkResult.errorOutOfDateKHR ∨
         inp.presentRes = VkResult.suboptimalKHR ∨
         (s.framebufferResized || inp.resizeEvent) = true))) := by
  constructor
  · rw [loopStep, drawFrame, hacq, finishFrame]
    simp only [hsub, if_true]
    by_cases hpc : inp.presentRes = VkResult.errorOutOfDateKHR ∨
        inp.presentRes = VkResult.suboptimalKHR ∨
        (s.framebufferResized || inp.resizeEvent) = true
    · rw [if_pos hpc]
      rfl
    · rw [if_neg hpc]
      have hps : inp.presentRes = VkResult.success := by
        cases hp : inp.presentRes
        · rfl
        · rw [hp] at hpc; exact absurd (Or.inr (Or.inl rfl)) hpc
        · rw [hp] at hpc; exact absurd (Or.inl rfl) hpc
        · exact absurd hp hpres
      rw [if_pos hps]
      rfl
  · intro s' ops hstep
    rcases loopStep_cases hstep with ⟨hacq2, -, -, -, -⟩ | ⟨-, -, -, -, hrest⟩
    · rw [hacq] at hacq2
      exact absurd hacq2 (by simp)
    · rcases hrest with ⟨hpc, -, hops⟩ | ⟨hps, hpc, -, hops⟩
      · subst hops
        exact ⟨by simp [normalOps], by simp [normalOps],
          iff_of_true (by simp [normalOps]) hpc⟩
      · subst hops
        exact ⟨by simp [normalOps], by simp [normalOps],
          iff_of_false (by simp [normalOps]) hpc⟩

/-- Iteration inputs with a suboptimal acquire and a suboptimal present. -/
def suboptBothInput : FrameInput :=
  { acquireRes := VkResult.suboptimalKHR, acquireImageIndex := 0,
    submitOk := true, presentRes := VkResult.suboptimalKHR,
    resizeEvent := false }

/-- Witness for C5 (amended): a suboptimal acquire followed by a suboptimal
present completes the frame and triggers recreation after presenting. -/
theorem suboptimal_acquire_proceeds_witness :
    (loopStep initialState suboptBothInput).isSome = true ∧
    (FrameOp.submit initialState.current_frame ∈
        normalOps 0 0 ++ [FrameOp.recreate] ∧
      FrameOp.present suboptBothInput.acquireImageIndex ∈
        normalOps 0 0 ++ [FrameOp.recreate] ∧
      (FrameOp.recreate ∈ normalOps 0 0 ++ [FrameOp.recreate] ↔
        (suboptBothInput.presentRes = VkResult.errorOutOfDateKHR ∨
         suboptBothInput.presentRes = VkResult.suboptimalKHR ∨
         (initialState.framebufferResized || suboptBothInput.resizeEvent) =
           true))) := by
  have h := suboptimal_acquire_proceeds initialState suboptBothInput rfl rfl
    (by decide)
  exact ⟨h.1, h.2 oneFrameState (normalOps 0 0 ++ [FrameOp.recreate])
    (by decide)⟩
